import Mathlib

/-!
Shallow embedding of the TradeCircle `accounts` app (`src/accounts/models.py`):
the custom `User` model, its `UserManager` (`create_user` / `create_superuser`),
the `UserProfile` model, and the persistence semantics those rely on
(unique-constrained columns, `auto_now` / `auto_now_add` timestamp columns,
cascade delete of the one-to-one profile).  The persistent store is a `DB`
value threaded through every operation; wall-clock time is an explicit `Nat`
argument to each write, and the environment-supplied password hash is an
explicit function argument.
-/

namespace TradeCircle
/-- A stored credential: either unusable (Django stores an unusable password
when `set_password` receives `None`) or the digest produced by the
environment-supplied one-way hash.  Plaintext is not a constructor. -/
inductive Credential where
  | unusable : Credential
  | hashed : String → Credential
deriving DecidableEq

/-- Model of `AbstractBaseUser.set_password`: a raw password is run through the
environment's one-way hash; `None` leaves the account without a usable
credential. -/
def set_password (hasher : String → String) : Option String → Credential
  | none => Credential.unusable
  | some raw => Credential.hashed (hasher raw)

/-- Python `str.strip()`: drop leading and trailing whitespace. -/
def pyStrip (s : String) : String :=
  String.mk (((s.toList.dropWhile Char.isWhitespace).reverse.dropWhile
    Char.isWhitespace).reverse)

/-- Split a character list at the first occurrence of `c`, returning the
parts before and after it, or `none` when `c` does not occur. -/
def splitFirstAux (c : Char) : List Char → Option (List Char × List Char)
  | [] => none
  | x :: xs =>
    if x = c then some ([], xs)
    else
      match splitFirstAux c xs with
      | none => none
      | some (a, b) => some (x :: a, b)

/-- Model of `BaseUserManager.normalize_email`: strip the address, split it at the
last `@` and lower-case the domain part; an address without an `@` is
returned unchanged (the Python code swallows the `rsplit` failure). -/
def normalize_email (email : String) : String :=
  match splitFirstAux '@' (pyStrip email).toList.reverse with
  | none => email
  | some (revDomain, revName) =>
      String.mk revName.reverse ++ "@" ++
        String.mk (revDomain.reverse.map Char.toLower)

/-- Role choice `RESTAURANT = 1`. -/
def RESTAURANT : Nat := 1

/-- Role choice `CUSTOMER = 2`. -/
def CUSTOMER : Nat := 2

/-- The `User` row: name and identity columns, optional role and phone, the
four timestamp columns, the four status flags declared in the model plus
`is_superuser` inherited from `PermissionsMixin`, and the stored credential.
`id` is the primary key, `none` until the row is first saved. -/
structure User where
  id : Option Nat
  first_name : String
  last_name : String
  username : String
  email : String
  phone_number : String
  role : Option Nat
  date_joined : Nat
  last_login : Nat
  modified_date : Nat
  created_date : Nat
  is_admin : Bool
  is_active : Bool
  is_superadmin : Bool
  is_staff : Bool
  is_superuser : Bool
  password : Credential
deriving DecidableEq

/-- Model of `self.model(email=…, username=…, first_name=…, last_name=…)`: a fresh,
unsaved instance; every other column carries its declared default (booleans
false, role NULL, phone blank, no usable password, timestamps unset until
the save stamps them). -/
def newUser (first_name last_name username email : String) : User :=
  { id := none, first_name := first_name, last_name := last_name,
    username := username, email := email, phone_number := "", role := none,
    date_joined := 0, last_login := 0, modified_date := 0, created_date := 0,
    is_admin := false, is_active := false, is_superadmin := false,
    is_staff := false, is_superuser := false,
    password := Credential.unusable }

/-- The `UserProfile` row: a nullable one-to-one reference to its owning
`User` (by primary key), the optional media, address and geolocation
columns, and the two timestamp columns. -/
structure UserProfile where
  id : Option Nat
  user : Option Nat
  profile_picture : Option String
  cover_photo : Option String
  address_line1 : Option String
  address_line2 : Option String
  country : Option String
  state : Option String
  city : Option String
  pin_code : Option String
  latitude : Option String
  longitude : Option String
  created_at : Nat
  modified_at : Nat
deriving DecidableEq

/-- An unsaved `UserProfile` instance with every optional column NULL. -/
def newProfile : UserProfile :=
  { id := none, user := none, profile_picture := none, cover_photo := none,
    address_line1 := none, address_line2 := none, country := none,
    state := none, city := none, pin_code := none, latitude := none,
    longitude := none, created_at := 0, modified_at := 0 }

/-- The persistent store: the two tables, the next primary key to allocate,
and a running count of the row writes performed (INSERTs and UPDATEs). -/
structure DB where
  users : List User
  profiles : List UserProfile
  nextId : Nat
  writes : Nat
deriving DecidableEq

/-- The empty store. -/
def dbEmpty : DB := { users := [], profiles := [], nextId := 0, writes := 0 }

/-- Failures of a creation operation: the two `ValueError`s raised inside
`create_user`, and the unique-constraint violation raised by the storage
layer. -/
inductive CreateError where
  | missingEmail : CreateError
  | missingUsername : CreateError
  | uniqueViolation : CreateError
deriving DecidableEq

/-- Whether a failure is one of the in-process `ValueError` validations (as
opposed to a constraint violation raised by the storage layer). -/
def CreateError.isValidation : CreateError → Bool
  | CreateError.missingEmail => true
  | CreateError.missingUsername => true
  | CreateError.uniqueViolation => false

/-- Model of `user.save(using=self._db)`.  An unsaved instance (no primary key) is
INSERTed: the unique constraints on `email` and `username` are checked, a
fresh key is allocated, the `auto_now_add` columns (`date_joined`,
`last_login`, `modified_date`) and the `auto_now` column (`created_date`)
are all stamped with the current time `t`.  An instance that already has a
key is UPDATEd in place, restamping only the `auto_now` column
`created_date`.  A write is atomic: on a constraint violation the store is
returned unchanged. -/
def saveUser (db : DB) (u : User) (t : Nat) : DB × Except CreateError User :=
  match u.id with
  | none =>
    if db.users.any (fun v => (v.email == u.email) || (v.username == u.username)) then
      (db, Except.error CreateError.uniqueViolation)
    else
      ({ db with
          users := db.users ++
            [{ u with
                id := some db.nextId, date_joined := t, last_login := t,
                modified_date := t, created_date := t }],
          nextId := db.nextId + 1, writes := db.writes + 1 },
        Except.ok { u with
          id := some db.nextId, date_joined := t, last_login := t,
          modified_date := t, created_date := t })
  | some i =>
    ({ db with
        users := db.users.map (fun v =>
          if v.id = some i then { u with created_date := t } else v),
        writes := db.writes + 1 },
      Except.ok { u with created_date := t })

/-- Model of `UserManager.create_user`: raise `ValueError` on a missing e-mail, then
on a missing username; otherwise construct the instance with the normalized
e-mail, set its password through the one-way hash, and save it. -/
def create_user (hasher : String → String) (db : DB)
    (first_name last_name username email : String)
    (password : Option String) (t : Nat) : DB × Except CreateError User :=
  if email = "" then (db, Except.error CreateError.missingEmail)
  else if username = "" then (db, Except.error CreateError.missingUsername)
  else
    saveUser db
      { newUser first_name last_name username (normalize_email email) with
        password := set_password hasher password } t

/-- Model of `UserManager.create_superuser`: delegate to `create_user` (passing the
e-mail through `normalize_email` once more, as the source does), then set
`is_admin`, `is_active`, `is_superadmin`, `is_staff` and `is_superuser` to
true and save the instance again at time `t2`. -/
def create_superuser (hasher : String → String) (db : DB)
    (first_name last_name username email : String)
    (password : Option String) (t1 t2 : Nat) : DB × Except CreateError User :=
  match create_user hasher db first_name last_name username
      (normalize_email email) password t1 with
  | (db1, Except.error e) => (db1, Except.error e)
  | (db1, Except.ok user) =>
    saveUser db1
      { user with
        is_admin := true, is_active := true, is_superadmin := true,
        is_staff := true, is_superuser := true } t2

/-- Model of `User.has_perms(self, perms, obj=None)`: answered from the flag state
alone; the body ignores both arguments. -/
def has_perms (u : User) (perms : List String) (obj : Option Nat) : Bool :=
  u.is_admin || u.is_superadmin || u.is_staff

/-- Model of `User.has_module_perms(self, app_label)`: answered from the flag state
alone; the body ignores the argument. -/
def has_module_perms (u : User) (app_label : String) : Bool :=
  u.is_staff || u.is_admin || u.is_superadmin

/-- Model of `User.__str__`. -/
def userStr (u : User) : String := u.email

/-- INSERT of a `UserProfile` row under the one-to-one (unique) constraint
on `user`; as in SQL, NULL owners are exempt from the unique constraint.
The `auto_now_add` column `created_at` and the `auto_now` column
`modified_at` are stamped with `t`. -/
def createProfile (db : DB) (p : UserProfile) (t : Nat) :
    DB × Except CreateError UserProfile :=
  if p.user.isSome && db.profiles.any (fun q => q.user == p.user) then
    (db, Except.error CreateError.uniqueViolation)
  else
    ({ db with
        profiles := db.profiles ++
          [{ p with id := some db.nextId, created_at := t, modified_at := t }],
        nextId := db.nextId + 1, writes := db.writes + 1 },
      Except.ok { p with
        id := some db.nextId, created_at := t, modified_at := t })

/-- DELETE of a `User` row: the row itself is removed and, through
`on_delete=models.CASCADE` on `UserProfile.user`, so is every profile row
referencing it. -/
def deleteUser (db : DB) (uid : Nat) : DB :=
  { db with
    users := db.users.filter (fun u => !(u.id == some uid)),
    profiles := db.profiles.filter (fun p => !(p.user == some uid)) }

/-- Model of `UserProfile.__str__`, which dereferences `self.user.email`: with a NULL owner
the attribute access has no value (the `AttributeError` branch); otherwise
it resolves the owning row and yields its e-mail. -/
def userProfileStr (db : DB) (p : UserProfile) : Option String :=
  match p.user with
  | none => none
  | some uid =>
      (db.users.find? (fun u => u.id == some uid)).map (fun u => u.email)

/-- The one-to-one constraint as a store invariant: at most one profile row
per owning user (NULL owners exempt). -/
def atMostOneProfile (db : DB) : Prop :=
  ∀ p ∈ db.profiles, ∀ q ∈ db.profiles,
    p.user.isSome = true → p.user = q.user → p = q

/-- A user whose only set flag is `is_staff`, for exercising the permission
predicates. -/
def staffOnlyUser : User :=
  { newUser "f" "l" "staffer" "s@x" with is_staff := true }

/-- A user with every permission/status flag false. -/
def noFlagsUser : User := newUser "f" "l" "nobody" "n@x"

/-- The row `create_user` inserts for the concrete witness inputs
`("f", "l", "u1", "A@B.C")` at time 3 on the empty store. -/
def witnessBaseUser : User :=
  { newUser "f" "l" "u1" "A@b.c" with
    id := some 0, date_joined := 3, last_login := 3, modified_date := 3,
    created_date := 3 }

/-- The store after that insertion. -/
def witnessBaseDB : DB :=
  { users := [witnessBaseUser], profiles := [], nextId := 1, writes := 1 }

/-- A store holding the witness user (key 0) and a profile owned by it. -/
def witnessProfileDB : DB :=
  { users := [witnessBaseUser],
    profiles := [{ newProfile with
      id := some 1, user := some 0, created_at := 4, modified_at := 4 }],
    nextId := 2, writes := 2 }

/-- The row `create_user` inserts for the C8 witness inputs, with the
visible one-way transform prepending a marker. -/
def witnessHashUser : User :=
  { newUser "f" "l" "u1" "A@b.c" with
    id := some 0, password := Credential.hashed "h:pw", date_joined := 3,
    last_login := 3, modified_date := 3, created_date := 3 }

/-- Appending strings acts as list append on the underlying character data. -/
theorem string_data_append (s t : String) : (s ++ t).data = s.data ++ t.data := rfl

/-- Normalizing the empty address yields the empty address. -/
theorem normalize_email_empty : normalize_email "" = "" := rfl

/-- Normalization never turns a non-empty address into the empty string. -/
theorem normalize_email_ne_empty {e : String} (h : e ≠ "") :
    normalize_email e ≠ "" := by
  unfold normalize_email
  split
  · exact h
  · intro hc
    have hd := congrArg String.data hc
    rw [string_data_append, string_data_append] at hd
    have hat : ("@" : String).data = ['@'] := rfl
    rw [hat] at hd
    simp at hd

/-- Inversion of a successful `create_user`: the inputs passed validation,
the returned user is the freshly stamped default row, the store gained
exactly that row (and one write), and no pre-existing row shared its e-mail
or username. -/
theorem create_user_ok_inv (hasher : String → String) (db : DB)
    (fn ln un em : String) (pw : Option String) (t : Nat) (db1 : DB) (u : User)
    (h : create_user hasher db fn ln un em pw t = (db1, Except.ok u)) :
    em ≠ "" ∧ un ≠ "" ∧
    u = { newUser fn ln un (normalize_email em) with
          id := some db.nextId, password := set_password hasher pw,
          date_joined := t, last_login := t, modified_date := t,
          created_date := t } ∧
    db1 = { db with
            users := db.users ++ [u], nextId := db.nextId + 1,
            writes := db.writes + 1 } ∧
    ∀ v ∈ db.users, v.email ≠ normalize_email em ∧ v.username ≠ un := by
  unfold create_user at h
  by_cases hem : em = ""
  · rw [if_pos hem] at h
    injection h with h1 h2
    exact Except.noConfusion h2
  · rw [if_neg hem] at h
    by_cases hun : un = ""
    · rw [if_pos hun] at h
      injection h with h1 h2
      exact Except.noConfusion h2
    · rw [if_neg hun] at h
      unfold saveUser at h
      simp only [newUser] at h
      split at h
      · injection h with h1 h2
        exact Except.noConfusion h2
      · injection h with h1 h2
        injection h2 with h3
        refine ⟨hem, hun, h3.symm, ?_, ?_⟩
        · rw [← h1, h3]
        · rename_i hany
          intro v hv
          simp only [List.any_eq_true, Bool.or_eq_true, beq_iff_eq] at hany
          push_neg at hany
          exact hany v hv

/-- C1: with a non-empty e-mail, a non-empty username and no row already
holding that (normalized) e-mail or username, `create_user` succeeds and
INSERTs exactly one `User` row — in one write — whose stored e-mail is the
normalized input e-mail, whose username, first and last names equal the
inputs, and whose `is_admin`, `is_active`, `is_superadmin` and `is_staff`
flags are all false. -/
theorem create_user_persists_one_default_user
    (hasher : String → String) (db : DB) (fn ln un em : String)
    (pw : Option String) (t : Nat)
    (hem : em ≠ "") (hun : un ≠ "")
    (hfree : ∀ v ∈ db.users, v.email ≠ normalize_email em ∧ v.username ≠ un) :
    create_user hasher db fn ln un em pw t =
      ({ db with
          users := db.users ++
            [{ newUser fn ln un (normalize_email em) with
                id := some db.nextId, password := set_password hasher pw,
                date_joined := t, last_login := t, modified_date := t,
                created_date := t }],
          nextId := db.nextId + 1, writes := db.writes + 1 },
        Except.ok
          { newUser fn ln un (normalize_email em) with
            id := some db.nextId, password := set_password hasher pw,
            date_joined := t, last_login := t, modified_date := t,
            created_date := t }) ∧
    (create_user hasher db fn ln un em pw t).2.toOption.map User.email =
      some (normalize_email em) ∧
    (create_user hasher db fn ln un em pw t).2.toOption.map User.username =
      some un ∧
    (create_user hasher db fn ln un em pw t).2.toOption.map User.first_name =
      some fn ∧
    (create_user hasher db fn ln un em pw t).2.toOption.map User.last_name =
      some ln ∧
    (create_user hasher db fn ln un em pw t).2.toOption.map User.is_admin =
      some false ∧
    (create_user hasher db fn ln un em pw t).2.toOption.map User.is_active =
      some false ∧
    (create_user hasher db fn ln un em pw t).2.toOption.map User.is_superadmin =
      some false ∧
    (create_user hasher db fn ln un em pw t).2.toOption.map User.is_staff =
      some false ∧
    (create_user hasher db fn ln un em pw t).1.writes = db.writes + 1 := by
  have hany : db.users.any (fun v =>
      (v.email == normalize_email em) || (v.username == un)) = false := by
    rw [List.any_eq_false]
    intro v hv
    simp only [Bool.or_eq_true, beq_iff_eq, not_or]
    exact ⟨(hfree v hv).1, (hfree v hv).2⟩
  have hmain : create_user hasher db fn ln un em pw t =
      ({ db with
          users := db.users ++
            [{ newUser fn ln un (normalize_email em) with
                id := some db.nextId, password := set_password hasher pw,
                date_joined := t, last_login := t, modified_date := t,
                created_date := t }],
          nextId := db.nextId + 1, writes := db.writes + 1 },
        Except.ok
          { newUser fn ln un (normalize_email em) with
            id := some db.nextId, password := set_password hasher pw,
            date_joined := t, last_login := t, modified_date := t,
            created_date := t }) := by
    unfold create_user
    rw [if_neg hem, if_neg hun]
    unfold saveUser
    simp only [newUser] at hany ⊢
    rw [hany]
    rfl
  refine ⟨hmain, ?_, ?_, ?_, ?_, ?_, ?_, ?_, ?_, ?_⟩ <;> rw [hmain] <;> rfl

/-- Witness for C1 at a concrete input: one user INSERTed into the empty
store, e-mail domain lower-cased, all flags false, one write. -/
theorem create_user_persists_one_default_user_witness :
    create_user (fun s => s) dbEmpty "f" "l" "u1" "A@B.C" none 7 =
      ({ users := [{ newUser "f" "l" "u1" "A@b.c" with
            id := some 0, date_joined := 7, last_login := 7,
            modified_date := 7, created_date := 7 }],
          profiles := [], nextId := 1, writes := 1 },
        Except.ok { newUser "f" "l" "u1" "A@b.c" with
          id := some 0, date_joined := 7, last_login := 7,
          modified_date := 7, created_date := 7 }) ∧
    (create_user (fun s => s) dbEmpty "f" "l" "u1" "A@B.C" none 7).2.toOption.map
      User.email = some "A@b.c" ∧
    (create_user (fun s => s) dbEmpty "f" "l" "u1" "A@B.C" none 7).2.toOption.map
      User.username = some "u1" ∧
    (create_user (fun s => s) dbEmpty "f" "l" "u1" "A@B.C" none 7).2.toOption.map
      User.first_name = some "f" ∧
    (create_user (fun s => s) dbEmpty "f" "l" "u1" "A@B.C" none 7).2.toOption.map
      User.last_name = some "l" ∧
    (create_user (fun s => s) dbEmpty "f" "l" "u1" "A@B.C" none 7).2.toOption.map
      User.is_admin = some false ∧
    (create_user (fun s => s) dbEmpty "f" "l" "u1" "A@B.C" none 7).2.toOption.map
      User.is_active = some false ∧
    (create_user (fun s => s) dbEmpty "f" "l" "u1" "A@B.C" none 7).2.toOption.map
      User.is_superadmin = some false ∧
    (create_user (fun s => s) dbEmpty "f" "l" "u1" "A@B.C" none 7).2.toOption.map
      User.is_staff = some false ∧
    (create_user (fun s => s) dbEmpty "f" "l" "u1" "A@B.C" none 7).1.writes =
      dbEmpty.writes + 1 :=
  create_user_persists_one_default_user (fun s => s) dbEmpty "f" "l" "u1"
    "A@B.C" none 7 (by decide) (by decide)
    (by intro v hv; exact absurd hv (List.not_mem_nil v))

/-- C2: `create_user` fails with an in-process validation error exactly when
the e-mail argument is empty or the username argument is empty, and on every
such failure the store is returned unchanged (no partial row is persisted);
the only other failure the operation can return is the storage layer's
unique-constraint violation, which is not a validation. -/
theorem create_user_validation_iff (hasher : String → String) (db : DB)
    (fn ln un em : String) (pw : Option String) (t : Nat) :
    ((∃ e, (create_user hasher db fn ln un em pw t).2 = Except.error e ∧
        e.isValidation = true) ↔ (em = "" ∨ un = "")) ∧
    ((em = "" ∨ un = "") → (create_user hasher db fn ln un em pw t).1 = db) := by
  unfold create_user
  by_cases hem : em = ""
  · rw [if_pos hem]
    exact ⟨⟨fun _ => Or.inl hem, fun _ => ⟨CreateError.missingEmail, rfl, rfl⟩⟩,
      fun _ => rfl⟩
  · rw [if_neg hem]
    by_cases hun : un = ""
    · rw [if_pos hun]
      exact ⟨⟨fun _ => Or.inr hun, fun _ => ⟨CreateError.missingUsername, rfl, rfl⟩⟩,
        fun _ => rfl⟩
    · rw [if_neg hun]
      constructor
      · constructor
        · rintro ⟨e, he, hv⟩
          exfalso
          unfold saveUser at he
          simp only [newUser] at he
          split at he
          · simp only at he
            injection he with h2
            rw [← h2] at hv
            simp [CreateError.isValidation] at hv
          · simp only at he
            exact Except.noConfusion he
        · rintro (h | h)
          · exact absurd h hem
          · exact absurd h hun
      · rintro (h | h)
        · exact absurd h hem
        · exact absurd h hun

/-- Witness for C2 at a concrete input: an empty username is rejected and
the empty store is unchanged. -/
theorem create_user_validation_iff_witness :
    (create_user (fun s => s) dbEmpty "f" "l" "" "A@B.C" none 7).1 = dbEmpty :=
  (create_user_validation_iff (fun s => s) dbEmpty "f" "l" "" "A@B.C" none 7).2
    (Or.inr rfl)

/-- C3: `create_superuser` delegates base construction to `create_user`;
when that succeeds it sets `is_admin`, `is_active`, `is_superadmin`,
`is_staff` (and `is_superuser`) to true and saves again — an UPDATE of the
freshly inserted row — so exactly two persistence writes happen in total and
the elevated row is in the store; when the e-mail or the username is empty,
the corresponding `create_user` validation failure propagates unchanged and
nothing is persisted. -/
theorem create_superuser_delegates_and_elevates
    (hasher : String → String) (db : DB) (fn ln un em : String)
    (pw : Option String) (t1 t2 : Nat) :
    (∀ db1 u, create_user hasher db fn ln un (normalize_email em) pw t1 =
        (db1, Except.ok u) →
      (create_superuser hasher db fn ln un em pw t1 t2).2 =
        Except.ok { u with
          is_admin := true, is_active := true, is_superadmin := true,
          is_staff := true, is_superuser := true, created_date := t2 } ∧
      ({ u with
          is_admin := true, is_active := true, is_superadmin := true,
          is_staff := true, is_superuser := true, created_date := t2 } : User) ∈
        (create_superuser hasher db fn ln un em pw t1 t2).1.users ∧
      (create_superuser hasher db fn ln un em pw t1 t2).1.writes =
        db.writes + 2) ∧
    (em = "" → create_superuser hasher db fn ln un em pw t1 t2 =
      (db, Except.error CreateError.missingEmail)) ∧
    (em ≠ "" → un = "" → create_superuser hasher db fn ln un em pw t1 t2 =
      (db, Except.error CreateError.missingUsername)) := by
  refine ⟨?_, ?_, ?_⟩
  · intro db1 u h
    obtain ⟨hem, hun, hu, hdb1, hfree⟩ :=
      create_user_ok_inv hasher db fn ln un (normalize_email em) pw t1 db1 u h
    unfold create_superuser
    rw [h]
    subst hu
    subst hdb1
    unfold saveUser
    refine ⟨rfl, ?_, rfl⟩
    simp [List.mem_map]
  · intro hem
    subst hem
    unfold create_superuser create_user
    rw [normalize_email_empty]
    rfl
  · intro hem hun
    subst hun
    have hne := normalize_email_ne_empty hem
    unfold create_superuser create_user
    rw [if_neg hne]
    rfl

/-- Witness for C3 at a concrete input: the elevated row is returned and
stored, with exactly two writes against the empty store. -/
theorem create_superuser_delegates_and_elevates_witness :
    (create_superuser (fun s => s) dbEmpty "f" "l" "u1" "A@B.C" none 3 9).2 =
      Except.ok { witnessBaseUser with
        is_admin := true, is_active := true, is_superadmin := true,
        is_staff := true, is_superuser := true, created_date := 9 } ∧
    ({ witnessBaseUser with
        is_admin := true, is_active := true, is_superadmin := true,
        is_staff := true, is_superuser := true, created_date := 9 } : User) ∈
      (create_superuser (fun s => s) dbEmpty "f" "l" "u1" "A@B.C" none 3 9).1.users ∧
    (create_superuser (fun s => s) dbEmpty "f" "l" "u1" "A@B.C" none 3 9).1.writes =
      dbEmpty.writes + 2 :=
  (create_superuser_delegates_and_elevates (fun s => s) dbEmpty "f" "l" "u1"
    "A@B.C" none 3 9).1 witnessBaseDB witnessBaseUser rfl

/-- C4: `has_perms` is true exactly when `is_admin` or `is_superadmin` or
`is_staff`; `has_module_perms` is true exactly when `is_staff` or `is_admin`
or `is_superadmin`; both ignore their arguments and every field other than
those three flags; a user whose only set flag is `is_staff` satisfies both,
and a user with all four flags false satisfies neither. -/
theorem permission_predicates_flag_union (u : User) (perms : List String)
    (obj : Option Nat) (app_label : String) :
    (has_perms u perms obj = (u.is_admin || u.is_superadmin || u.is_staff)) ∧
    (has_module_perms u app_label =
      (u.is_staff || u.is_admin || u.is_superadmin)) ∧
    (∀ (u2 : User) (perms2 : List String) (obj2 : Option Nat) (app2 : String),
      u2.is_admin = u.is_admin → u2.is_superadmin = u.is_superadmin →
      u2.is_staff = u.is_staff →
      has_perms u2 perms2 obj2 = has_perms u perms obj ∧
      has_module_perms u2 app2 = has_module_perms u app_label) ∧
    (u.is_staff = true →
      has_perms u perms obj = true ∧ has_module_perms u app_label = true) ∧
    (u.is_admin = false → u.is_active = false → u.is_superadmin = false →
      u.is_staff = false →
      has_perms u perms obj = false ∧ has_module_perms u app_label = false) := by
  refine ⟨rfl, rfl, ?_, ?_, ?_⟩
  · intro u2 perms2 obj2 app2 h1 h2 h3
    unfold has_perms has_module_perms
    rw [h1, h2, h3]
    exact ⟨rfl, rfl⟩
  · intro hs
    unfold has_perms has_module_perms
    rw [hs]
    simp
  · intro h1 _ h3 h4
    unfold has_perms has_module_perms
    rw [h1, h3, h4]
    simp

/-- Witness for C4: the staff-only user satisfies both predicates, the
all-false user satisfies neither. -/
theorem permission_predicates_flag_union_witness :
    (has_perms staffOnlyUser [] none = true ∧
      has_module_perms staffOnlyUser "accounts" = true) ∧
    (has_perms noFlagsUser [] none = false ∧
      has_module_perms noFlagsUser "accounts" = false) :=
  ⟨(permission_predicates_flag_union staffOnlyUser [] none "accounts").2.2.2.1 rfl,
    (permission_predicates_flag_union noFlagsUser [] none "accounts").2.2.2.2
      rfl rfl rfl rfl⟩

/-- C5: after a successful creation, a second creation call sharing the same
e-mail (or the same username) with otherwise valid data is rejected by the
storage layer's unique constraint, with the store unchanged; and creation
preserves the invariant that no persisted row has an empty e-mail or
username. -/
theorem unique_email_username (hasher : String → String) (db db1 : DB)
    (fn1 ln1 un1 em1 : String) (pw1 : Option String) (t1 : Nat) (u1 : User)
    (fn2 ln2 un2 em2 : String) (pw2 : Option String) (t2 : Nat)
    (h1 : create_user hasher db fn1 ln1 un1 em1 pw1 t1 = (db1, Except.ok u1)) :
    ((em2 = em1 ∧ un2 ≠ "") ∨ (un2 = un1 ∧ em2 ≠ "") →
      create_user hasher db1 fn2 ln2 un2 em2 pw2 t2 =
        (db1, Except.error CreateError.uniqueViolation)) ∧
    ((∀ v ∈ db.users, v.email ≠ "" ∧ v.username ≠ "") →
      ∀ v ∈ db1.users, v.email ≠ "" ∧ v.username ≠ "") := by
  obtain ⟨hem1, hun1, hu1, hdb1, hfree⟩ :=
    create_user_ok_inv hasher db fn1 ln1 un1 em1 pw1 t1 db1 u1 h1
  constructor
  · intro hdup
    have hem2 : em2 ≠ "" := by
      rcases hdup with ⟨he, _⟩ | ⟨_, he⟩
      · rw [he]; exact hem1
      · exact he
    have hun2 : un2 ≠ "" := by
      rcases hdup with ⟨_, hu⟩ | ⟨hu, _⟩
      · exact hu
      · rw [hu]; exact hun1
    unfold create_user
    rw [if_neg hem2, if_neg hun2]
    unfold saveUser
    simp only [newUser]
    have hmem : u1 ∈ db1.users := by
      rw [hdb1]
      simp
    have hany : db1.users.any (fun v =>
        (v.email == normalize_email em2) || (v.username == un2)) = true := by
      rw [List.any_eq_true]
      refine ⟨u1, hmem, ?_⟩
      rcases hdup with ⟨he, _⟩ | ⟨hu, _⟩
      · rw [hu1, he]
        simp [newUser]
      · rw [hu1, hu]
        simp [newUser]
    rw [hany]
    rfl
  · intro hinv v hv
    rw [hdb1] at hv
    simp only [List.mem_append, List.mem_singleton] at hv
    rcases hv with hv | hv
    · exact hinv v hv
    · rw [hv, hu1]
      refine ⟨?_, ?_⟩
      · simpa [newUser] using normalize_email_ne_empty hem1
      · simpa [newUser] using hun1

/-- Witness for C5: re-creating with the same e-mail against the store that
already holds it is rejected by the unique constraint, store unchanged. -/
theorem unique_email_username_witness :
    create_user (fun s => s) witnessBaseDB "g" "m" "u2" "A@B.C" none 5 =
      (witnessBaseDB, Except.error CreateError.uniqueViolation) :=
  (unique_email_username (fun s => s) dbEmpty witnessBaseDB "f" "l" "u1"
    "A@B.C" none 3 witnessBaseUser "g" "m" "u2" "A@B.C" none 5 rfl).1
    (Or.inl ⟨rfl, by decide⟩)

/-- C6: an UPDATE (saving a row that already has a primary key) restamps
only the `auto_now` column `created_date`, leaving `date_joined`,
`last_login`, `modified_date` and every other field unchanged; in
particular the base row of a superuser elevation carries the first save
time `t1` in all four stamps, and the re-saved elevated row keeps
`date_joined`, `last_login`, `modified_date` at `t1` while `created_date`
moves to the second save time `t2`. -/
theorem timestamps_update_semantics (db : DB) (u : User) (t : Nat)
    (hasher : String → String) (fn ln un em : String) (pw : Option String)
    (t1 t2 : Nat) :
    (∀ i, u.id = some i →
      (saveUser db u t).2 = Except.ok { u with created_date := t }) ∧
    (∀ db1 v, create_user hasher db fn ln un (normalize_email em) pw t1 =
        (db1, Except.ok v) →
      v.date_joined = t1 ∧ v.last_login = t1 ∧ v.modified_date = t1 ∧
      v.created_date = t1 ∧
      (create_superuser hasher db fn ln un em pw t1 t2).2 =
        Except.ok { v with
          is_admin := true, is_active := true, is_superadmin := true,
          is_staff := true, is_superuser := true, created_date := t2 }) := by
  constructor
  · intro i hi
    unfold saveUser
    rw [hi]
  · intro db1 v h
    obtain ⟨hem, hun, hv, hdb1, hfree⟩ :=
      create_user_ok_inv hasher db fn ln un (normalize_email em) pw t1 db1 v h
    subst hv
    refine ⟨rfl, rfl, rfl, rfl, ?_⟩
    unfold create_superuser
    rw [h]
    rfl

/-- Witness for C6: re-saving the persisted witness row at time 9 keeps the
three creation stamps at 3 and moves only `created_date` to 9. -/
theorem timestamps_update_semantics_witness :
    (saveUser witnessBaseDB witnessBaseUser 9).2 =
      Except.ok { witnessBaseUser with created_date := 9 } :=
  (timestamps_update_semantics witnessBaseDB witnessBaseUser 9 (fun s => s)
    "f" "l" "u1" "A@B.C" none 3 9).1 0 rfl

/-- C7: deleting a `User` cascades — afterwards no profile row references
the deleted key and no user row bears it; deleting a user that owns no
profile leaves the profile table untouched (the operation is total, so it
always succeeds); and both profile insertion and user deletion preserve the
one-to-one invariant that each user owns at most one profile. -/
theorem delete_cascades_profile (db : DB) (uid : Nat) (p0 : UserProfile)
    (t : Nat) :
    (∀ p ∈ (deleteUser db uid).profiles, p.user ≠ some uid) ∧
    (∀ u ∈ (deleteUser db uid).users, u.id ≠ some uid) ∧
    ((∀ p ∈ db.profiles, p.user ≠ some uid) →
      (deleteUser db uid).profiles = db.profiles) ∧
    (atMostOneProfile db → atMostOneProfile (createProfile db p0 t).1) ∧
    (atMostOneProfile db → atMostOneProfile (deleteUser db uid)) := by
  refine ⟨?_, ?_, ?_, ?_, ?_⟩
  · intro p hp
    unfold deleteUser at hp
    simp only [List.mem_filter, Bool.not_eq_eq_eq_not, Bool.not_true,
      beq_eq_false_iff_ne, ne_eq] at hp
    exact hp.2
  · intro u hu
    unfold deleteUser at hu
    simp only [List.mem_filter, Bool.not_eq_eq_eq_not, Bool.not_true,
      beq_eq_false_iff_ne, ne_eq] at hu
    exact hu.2
  · intro hnone
    unfold deleteUser
    simp only
    rw [List.filter_eq_self]
    intro p hp
    simp only [Bool.not_eq_eq_eq_not, Bool.not_true, beq_eq_false_iff_ne, ne_eq]
    exact hnone p hp
  · intro hone
    unfold createProfile
    by_cases hguard :
        (p0.user.isSome && db.profiles.any (fun q => q.user == p0.user)) = true
    · rw [if_pos hguard]
      exact hone
    · rw [if_neg hguard]
      have hng : ∀ q ∈ db.profiles, p0.user.isSome = true → q.user ≠ p0.user := by
        intro q hq hs he
        apply hguard
        simp only [Bool.and_eq_true, hs, List.any_eq_true, true_and]
        exact ⟨q, hq, by simp [he]⟩
      intro p hp q hq hps hpq
      simp only [List.mem_append, List.mem_singleton] at hp hq
      rcases hp with hp | hp <;> rcases hq with hq | hq
      · exact hone p hp q hq hps hpq
      · exfalso
        have hqu : q.user = p0.user := by rw [hq]
        have hps0 : p0.user.isSome = true := by
          rw [← hqu, ← hpq]; exact hps
        exact hng p hp hps0 (by rw [hpq, hqu])
      · exfalso
        have hpu : p.user = p0.user := by rw [hp]
        have hps0 : p0.user.isSome = true := by rw [← hpu]; exact hps
        exact hng q hq hps0 (by rw [← hpq, hpu])
      · rw [hp, hq]
  · intro hone p hp q hq hps hpq
    unfold deleteUser at hp hq
    exact hone p (List.mem_of_mem_filter hp) q (List.mem_of_mem_filter hq)
      hps hpq

/-- Witness for C7: deleting a key that owns no profile leaves the profile
table of the concrete store untouched. -/
theorem delete_cascades_profile_witness :
    (deleteUser witnessProfileDB 5).profiles = witnessProfileDB.profiles :=
  (delete_cascades_profile witnessProfileDB 5 newProfile 9).2.2.1
    (by simp [witnessProfileDB, newProfile])

/-- C8: the credential persisted by `create_user` is exactly the image of
the input under the environment's one-way transform: a provided password is
stored as its hash — and the entire result of the call depends on the
password only through that hash, so no plaintext reaches the store — while
an omitted password leaves the stored credential unusable. -/
theorem password_one_way (hasher : String → String) (db : DB)
    (fn ln un em : String) (t : Nat) :
    (∀ p db1 u, create_user hasher db fn ln un em (some p) t =
        (db1, Except.ok u) → u.password = Credential.hashed (hasher p)) ∧
    (∀ db1 u, create_user hasher db fn ln un em none t =
        (db1, Except.ok u) → u.password = Credential.unusable) ∧
    (∀ p1 p2, hasher p1 = hasher p2 →
      create_user hasher db fn ln un em (some p1) t =
        create_user hasher db fn ln un em (some p2) t) := by
  refine ⟨?_, ?_, ?_⟩
  · intro p db1 u h
    obtain ⟨_, _, hu, _, _⟩ :=
      create_user_ok_inv hasher db fn ln un em (some p) t db1 u h
    rw [hu]
    rfl
  · intro db1 u h
    obtain ⟨_, _, hu, _, _⟩ :=
      create_user_ok_inv hasher db fn ln un em none t db1 u h
    rw [hu]
    rfl
  · intro p1 p2 hp
    simp only [create_user, set_password, hp]

/-- Witness for C8: the stored credential is the hash image of the raw
password, not the raw password. -/
theorem password_one_way_witness :
    witnessHashUser.password = Credential.hashed "h:pw" :=
  (password_one_way (fun s => "h:" ++ s) dbEmpty "f" "l" "u1" "A@B.C" 3).1
    "pw" ⟨[witnessHashUser], [], 1, 1⟩ witnessHashUser rfl

/-- C9 (amended): on a successful delegated `create_user`, the user returned
by `create_superuser` differs from the base user in exactly the five flags
`is_admin`, `is_active`, `is_superadmin`, `is_staff`, `is_superuser` — all
set true — plus the `auto_now` column `created_date`, which the re-save
restamps to the second save time; every other field is unchanged. -/
theorem create_superuser_elevation_frame (hasher : String → String) (db : DB)
    (fn ln un em : String) (pw : Option String) (t1 t2 : Nat) (db1 : DB)
    (u : User)
    (h : create_user hasher db fn ln un (normalize_email em) pw t1 =
      (db1, Except.ok u)) :
    (create_superuser hasher db fn ln un em pw t1 t2).2 =
      Except.ok { u with
        is_admin := true, is_active := true, is_superadmin := true,
        is_staff := true, is_superuser := true, created_date := t2 } := by
  obtain ⟨_, _, hu, _, _⟩ :=
    create_user_ok_inv hasher db fn ln un (normalize_email em) pw t1 db1 u h
  subst hu
  unfold create_superuser
  rw [h]
  rfl

/-- C9 counterexample: at a concrete input with distinct save times the
elevated user is NOT the base user with only the five flags changed —
the re-save moved `created_date` from 0 to 1 as well, so the elevation
step does not modify only the five flags. -/
theorem create_superuser_not_only_flags :
    (create_superuser (fun s => s) dbEmpty "f" "l" "u1" "a@b" none 0
        1).2.toOption.map User.created_date = some 1 ∧
    (create_user (fun s => s) dbEmpty "f" "l" "u1" (normalize_email "a@b")
        none 0).2.toOption.map User.created_date = some 0 ∧
    (create_superuser (fun s => s) dbEmpty "f" "l" "u1" "a@b" none 0
        1).2.toOption ≠
      (create_user (fun s => s) dbEmpty "f" "l" "u1" (normalize_email "a@b")
        none 0).2.toOption.map (fun v =>
          { v with
            is_admin := true, is_active := true, is_superadmin := true,
            is_staff := true, is_superuser := true }) := by
  decide

/-- Witness for the amended C9 at a concrete input: the elevated row equals
the base row except the five flags and `created_date`. -/
theorem create_superuser_elevation_frame_witness :
    (create_superuser (fun s => s) dbEmpty "g" "m" "u9" "B@C.D" none 2 8).2 =
      Except.ok { newUser "g" "m" "u9" "B@c.d" with
        id := some 0, date_joined := 2, last_login := 2, modified_date := 2,
        created_date := 8, is_admin := true, is_active := true,
        is_superadmin := true, is_staff := true, is_superuser := true } :=
  create_superuser_elevation_frame (fun s => s) dbEmpty "g" "m" "u9" "B@C.D"
    none 2 8
    ⟨[{ newUser "g" "m" "u9" "B@c.d" with
        id := some 0, date_joined := 2, last_login := 2, modified_date := 2,
        created_date := 2 }], [], 1, 1⟩
    { newUser "g" "m" "u9" "B@c.d" with
      id := some 0, date_joined := 2, last_login := 2, modified_date := 2,
      created_date := 2 } rfl

/-- C10: `UserProfile.user` is nullable — an ownerless profile row can be
INSERTed — and for such a profile the string representation has no value
(the NULL dereference branch is reached), while a profile whose owner
resolves in the store yields the owner's e-mail. -/
theorem profile_str_nullable_owner (db : DB) (p : UserProfile) (t : Nat) :
    (p.user = none → userProfileStr db p = none) ∧
    (∀ uid u, p.user = some uid →
      db.users.find? (fun v => v.id == some uid) = some u →
      userProfileStr db p = some u.email) ∧
    (p.user = none →
      createProfile db p t =
        ({ db with
            profiles := db.profiles ++
              [{ p with
                  id := some db.nextId, created_at := t,
                  modified_at := t }],
            nextId := db.nextId + 1, writes := db.writes + 1 },
          Except.ok { p with
            id := some db.nextId, created_at := t, modified_at := t })) := by
  refine ⟨?_, ?_, ?_⟩
  · intro h
    unfold userProfileStr
    rw [h]
  · intro uid u hp hf
    unfold userProfileStr
    rw [hp]
    simp only
    rw [hf]
    rfl
  · intro h
    unfold createProfile
    rw [h]
    rfl

/-- Witness for C10: an ownerless profile is persisted into the empty store
and its string representation has no value. -/
theorem profile_str_nullable_owner_witness :
    userProfileStr dbEmpty newProfile = none ∧
    createProfile dbEmpty newProfile 4 =
      ({ dbEmpty with
          profiles := dbEmpty.profiles ++
            [{ newProfile with
                id := some dbEmpty.nextId, created_at := 4,
                modified_at := 4 }],
          nextId := dbEmpty.nextId + 1, writes := dbEmpty.writes + 1 },
        Except.ok { newProfile with
          id := some dbEmpty.nextId, created_at := 4, modified_at := 4 }) :=
  ⟨(profile_str_nullable_owner dbEmpty newProfile 4).1 rfl,
    (profile_str_nullable_owner dbEmpty newProfile 4).2.2 rfl⟩

end TradeCircle
